import Mathlib

/-
  Verification development for the faker_order_generator repository.
  The Python sources constants.py and order_data_source.py are shallowly
  embedded below: the shared pseudo random source and the Faker instance
  are abstracted as deterministic state transformers, floats are modelled
  as rationals, and calendar arithmetic follows the proleptic Gregorian
  rules used by datetime.date and dateutil.relativedelta.
-/

namespace FakerOrderGen

/-- Calendar date given by year, month and day, mirroring datetime.date. -/
structure Date where
  year : Nat
  month : Nat
  day : Nat
  deriving DecidableEq, Repr

/-- Gregorian leap year rule. -/
def isLeapYear (y : Nat) : Bool :=
  (y % 4 == 0 && y % 100 != 0) || (y % 400 == 0)

/-- Number of days of a month in a given year. -/
def daysInMonth (y m : Nat) : Nat :=
  if m = 2 then (if isLeapYear y then 29 else 28)
  else if m = 4 ∨ m = 6 ∨ m = 9 ∨ m = 11 then 30
  else 31

/-- Days in the months of the year strictly before month m. -/
def daysBeforeMonth (y m : Nat) : Nat :=
  ((List.range (m - 1)).map (fun i => daysInMonth y (i + 1))).sum

/-- Proleptic Gregorian ordinal of a date, as computed by Python date.toordinal. -/
def toOrdinal (d : Date) : Nat :=
  365 * (d.year - 1) + (d.year - 1) / 4 - (d.year - 1) / 100 + (d.year - 1) / 400
    + daysBeforeMonth d.year d.month + d.day

/-- Weekday with Monday equal to 0, as returned by Python date.weekday. -/
def pyWeekday (d : Date) : Nat :=
  (toOrdinal d - 1) % 7

/-- Successor date with month and year rollover. -/
def nextDay (d : Date) : Date :=
  if d.day < daysInMonth d.year d.month then ⟨d.year, d.month, d.day + 1⟩
  else if d.month < 12 then ⟨d.year, d.month + 1, 1⟩
  else ⟨d.year + 1, 1, 1⟩

/-- Adding a number of days to a date, as timedelta addition does. -/
def addDays (d : Date) : Nat → Date
  | 0 => d
  | n + 1 => addDays (nextDay d) n

/-- Zero padded two digit rendering used by the strftime format codes. -/
def pad2 (n : Nat) : String :=
  if n < 10 then ("0") ++ toString n else toString n

/-- Date rendering in the MM/DD/YYYY strftime format of the source. -/
def fmtDate (d : Date) : String :=
  pad2 d.month ++ "/" ++ pad2 d.day ++ "/" ++ toString d.year

/- Constants from constants.py. -/

def BLACK_FRIDAY_MONTH : Nat := 11

def BLACK_FRIDAY_START_DAY : Nat := 1

def BLACK_FRIDAY_WEEK : Nat := 4

def WEIGHTS_COUPON_APPLIED : List ℚ := [0.7, 0.3]

def WEIGHTS_PAYMENT_METHODS : List ℚ := [0.75, 0.05, 0.05, 0.05, 0.05, 0.05]

def WEIGHTS_SHIPPING_METHOD : List ℚ := [0.7, 0.2, 0.1]

def WEIGHTS_SUBSCRIBER_USER : List ℚ := [0.5, 0.5]

def MAX_DELAY_EVENTS : ℚ := 1

def MIN_DELAY_EVENTS : ℚ := 0.1

def MAX_NUM_ITEMS_PER_USER : Nat := 10

def MAX_NUMBER_USERS : Nat := 50

def TOTAL_ORDERS : Nat := 1000

/-- Day jump used by dateutil relativedelta with a positive weekday count n:
move to the given weekday (Monday is 0) on or after the date, then add n minus
one further weeks. -/
def nthWeekdayJump (d : Date) (wd n : Nat) : Nat :=
  (7 - pyWeekday d + wd) % 7 + (n - 1) * 7

/-- Translation of OrderDataSource private method computing the next Black Friday:
possibly advance the year, reset to the start day of the target month, roll to the
fourth Thursday, then add one day.  The weekday code of Thursday is 3. -/
def get_next_black_friday_date (today : Date) : Date :=
  let y := if today.month > BLACK_FRIDAY_MONTH ∨
      (today.month = BLACK_FRIDAY_MONTH ∧
        today.day > BLACK_FRIDAY_START_DAY + BLACK_FRIDAY_WEEK)
    then today.year + 1 else today.year
  let base : Date := ⟨y, BLACK_FRIDAY_MONTH, BLACK_FRIDAY_START_DAY⟩
  addDays (addDays base (nthWeekdayJump base 3 BLACK_FRIDAY_WEEK)) 1

/-- Abstract interface of the shared pseudo random source (the Python random
module).  Seeding produces a state depending only on the seed value, and every
primitive consumes and returns state deterministically, as the concrete Mersenne
Twister does. -/
structure RNG (σ : Type) where
  seedFn : Nat → σ
  unitFn : σ → ℚ × σ
  randintFn : σ → Nat → Nat → Nat × σ
  choiceIdx : σ → Nat → Nat × σ
  uniformFn : σ → ℚ → ℚ → ℚ × σ

/-- Range contracts of the random primitives: random.random lies in [0, 1),
random.randint a b lies in [a, b] when a is at most b, the index drawn for
random.choice is below the length, and random.uniform a b lies in [a, b]. -/
def RNG.Valid {σ : Type} (R : RNG σ) : Prop :=
  (∀ s, 0 ≤ (R.unitFn s).1 ∧ (R.unitFn s).1 < 1) ∧
  (∀ s a b, a ≤ b → a ≤ (R.randintFn s a b).1 ∧ (R.randintFn s a b).1 ≤ b) ∧
  (∀ s n, 0 < n → (R.choiceIdx s n).1 < n) ∧
  (∀ s a b, a ≤ b → a ≤ (R.uniformFn s a b).1 ∧ (R.uniformFn s a b).1 ≤ b)

/-- Selection step of random.choices: walk the candidate and weight lists,
subtracting weights from the draw, and return the first candidate whose weight
exceeds what remains of the draw.  This matches bisecting the cumulative weights. -/
def pickByWeight {α : Type} : List α → List ℚ → ℚ → Option α
  | [], _, _ => none
  | _, [], _ => none
  | c :: cs, w :: ws, u => if u < w then some c else pickByWeight cs ws (u - w)

/-- Total weight a weighted choice call assigns to a given candidate value. -/
def weightAssigned {α : Type} [DecidableEq α] : List α → List ℚ → α → ℚ
  | [], _, _ => 0
  | _, [], _ => 0
  | c :: cs, w :: ws, x => (if c = x then w else 0) + weightAssigned cs ws x

/-- Translation of the weighted choice helper of OrderDataSource, built on
random.choices with k equal to one: a single unit draw is scaled by the total
weight and used to pick one candidate. -/
def random_choice_with_weights {σ α : Type} (R : RNG σ) (choices : List α)
    (weights : List ℚ) (s : σ) : Option α × σ :=
  let r := R.unitFn s
  (pickByWeight choices weights (r.1 * weights.sum), r.2)

/-- Abstract interface of the Faker instance held by the generator. -/
structure FakerGen (φ : Type) where
  seed_instance : Nat → φ
  random_number : φ → Nat → Nat × φ
  boolean : φ → Nat → Bool × φ
  user_agent : φ → String × φ

/-- The fixed coupon table of order_data_source.py, in insertion order. -/
def DISCOUNT_COUPONS : List (String × ℚ) :=
  [("FRIDAYFIVEOFF", 0.05), ("BLACK10%", 0.1), ("BF15DISCOUNT", 0.15),
    ("20OFFFOURYOUBF", 0.2)]

/-- Rounding to two decimal places, as Python round with ndigits two. -/
def round2 (q : ℚ) : ℚ :=
  (round (100 * q) : ℤ) / 100

/-- Translation of the discount coupon method: draw the applied flag by weighted
choice over true and false with WEIGHTS_COUPON_APPLIED, then on success pick a
coupon code uniformly and look up its value. -/
def apply_discount_coupon {σ : Type} (R : RNG σ) (s : σ) : (Bool × String × ℚ) × σ :=
  let r1 := random_choice_with_weights R [true, false] WEIGHTS_COUPON_APPLIED s
  let is_coupon_applied := r1.1.getD false
  if is_coupon_applied then
    let r2 := R.choiceIdx r1.2 DISCOUNT_COUPONS.length
    let coupon_description := (DISCOUNT_COUPONS.map Prod.fst).getD r2.1 ("")
    let coupon_value := (DISCOUNT_COUPONS.lookup coupon_description).getD 0
    ((is_coupon_applied, coupon_description, coupon_value), r2.2)
  else ((is_coupon_applied, (""), 0), r1.2)

/-- One generated line item: product type, description and price. -/
structure Item where
  type : String
  description : String
  price : ℚ
  deriving DecidableEq, Repr

/-- Loop of the item synthesis: one dictionary entry per index, drawing a product
type from the catalog keys, a description from that type and a price uniform in
[1, 100] rounded to two decimals. -/
def build_products {σ : Type} (R : RNG σ) (catalog : List (String × List String)) :
    Nat → Nat → σ → List (String × Item) × σ
  | 0, _, s => ([], s)
  | k + 1, idx, s =>
    let rt := R.choiceIdx s catalog.length
    let entry := catalog.getD rt.1 ((""), [])
    let rd := R.choiceIdx rt.2 entry.2.length
    let descr := entry.2.getD rd.1 ("")
    let rp := R.uniformFn rd.2 1 100
    let rest := build_products R catalog k (idx + 1) rp.2
    ((("product_") ++ toString idx, ⟨entry.1, descr, round2 rp.1⟩) :: rest.1, rest.2)

/-- Translation of the item synthesis method: reseed the shared source with the
order number (discarding the incoming state, as random.seed does), draw the item
count in [1, max_num_items], then build the items. -/
def generate_random_product_data {σ : Type} (R : RNG σ)
    (catalog : List (String × List String)) (max_num_items order_num : Nat)
    (s : σ) : List (String × Item) × σ :=
  let s0 := R.seedFn order_num
  let rc := R.randintFn s0 1 max_num_items
  build_products R catalog rc.1 1 rc.2

/-- Translation of the shipping method: weighted shipping method, cost zero for
subscribers and otherwise a uniform draw between one and ten percent of the
subtotal rounded to two decimals, and a delivery date three to thirty days after
the promotional date. -/
def generate_shipping_data {σ : Type} (R : RNG σ) (bfDate : Date)
    (subscriber_user : Bool) (total_order_price : ℚ) (s : σ) :
    (String × ℚ × String) × σ :=
  let rm := random_choice_with_weights R
    [("Standard"), ("Expedited"), ("Next Day")] WEIGHTS_SHIPPING_METHOD s
  let shipping_method := rm.1.getD ("Next Day")
  let rc : ℚ × σ :=
    if subscriber_user then (0, rm.2)
    else
      let ru := R.uniformFn rm.2 (total_order_price * 0.01) (total_order_price * 0.1)
      (round2 ru.1, ru.2)
  let rd := R.randintFn rc.2 3 30
  let estimated_delivery := fmtDate (addDays bfDate rd.1)
  ((shipping_method, rc.1, estimated_delivery), rd.2)

/-- The six values of the PaymentMethods enum, in declaration order; the source
draws an enum member and takes its value. -/
def payment_methods : List String :=
  [("Credit Card"), ("Debit Card"), ("PayPal"), ("Digital Wallet"), ("BLPL"), ("COD")]

/-- The emitted order record. -/
structure Order where
  order_id : String
  order_date : String
  user_id : Nat
  subscriber_user : Bool
  ordered_items : List (String × Item)
  num_ordered_items : Nat
  total_order_price : ℚ
  payment_method : String
  discount_coupon_applied : Bool
  discount_coupon_description : String
  discount_coupon_value : ℚ
  sales_tax_value : ℚ
  gift_wrap : Bool
  shipping_method : String
  shipping_cost : ℚ
  estimated_delivery : String
  platform : String
  net_total_order_price : ℚ
  deriving DecidableEq, Repr

/-- The net total derivation of the source: subtotal minus shipping cost, coupon
value and sales tax value, rounded to two decimals, with no lower bound applied. -/
def net_total_price (total shipping coupon tax : ℚ) : ℚ :=
  round2 (total - shipping - coupon - tax)

/-- State of a constructed OrderDataSource instance. -/
structure OrderDataSource where
  max_total_orders : Nat
  num_users : Nat
  max_num_items : Nat
  products_json_file : String
  products_json : List (String × List String)
  date : Date

/-- Translation of the order synthesis method, following the source draw order
exactly: Faker identity seed, order id, subscriber flag, items, subtotal, payment
method, coupon, sales tax, gift wrap, shipping, platform, net total. -/
def generate_random_order_data {σ φ : Type} (R : RNG σ) (F : FakerGen φ)
    (src : OrderDataSource) (user_id order_num : Nat) (s : σ) (f0 : φ) :
    Order × σ × φ :=
  let f1 := F.seed_instance (user_id + order_num)
  let bf := src.date
  let rn := F.random_number f1 10
  let order_id := toString bf.year ++ "-" ++ toString bf.month ++ "-" ++ toString rn.1
  let order_date := fmtDate bf
  let rs := random_choice_with_weights R [true, false] WEIGHTS_SUBSCRIBER_USER s
  let subscriber_user := rs.1.getD false
  let ri := generate_random_product_data R src.products_json src.max_num_items order_num rs.2
  let ordered_items := ri.1
  let num_ordered_items := ordered_items.length
  let total_order_price := round2 ((ordered_items.map (fun it => it.2.price)).sum)
  let rp := random_choice_with_weights R payment_methods WEIGHTS_PAYMENT_METHODS ri.2
  let payment_method := rp.1.getD ("COD")
  let rcp := apply_discount_coupon R rp.2
  let rt := R.uniformFn rcp.2 0.01 0.1
  let sales_tax := round2 rt.1
  let sales_tax_value := round2 (total_order_price * sales_tax)
  let rg := F.boolean rn.2 20
  let rsh := generate_shipping_data R bf subscriber_user total_order_price rt.2
  let ra := F.user_agent rg.2
  let order : Order := {
    order_id := order_id
    order_date := order_date
    user_id := user_id
    subscriber_user := subscriber_user
    ordered_items := ordered_items
    num_ordered_items := num_ordered_items
    total_order_price := total_order_price
    payment_method := payment_method
    discount_coupon_applied := rcp.1.1
    discount_coupon_description := rcp.1.2.1
    discount_coupon_value := rcp.1.2.2
    sales_tax_value := sales_tax_value
    gift_wrap := rg.1
    shipping_method := rsh.1.1
    shipping_cost := rsh.1.2.1
    estimated_delivery := rsh.1.2.2
    platform := ra.1
    net_total_order_price := net_total_price total_order_price rsh.1.2.1 rcp.1.2.2 sales_tax_value }
  (order, rsh.2, ra.2)

/-- Translation of the catalog loader: the filesystem is a partial map from path
to parsed catalog content, and a missing path raises FileNotFoundError which the
method logs and re-raises. -/
def load_product_data (fs : String → Option (List (String × List String)))
    (path : String) : Except String (List (String × List String)) :=
  match fs path with
  | some content => Except.ok content
  | none => Except.error ("FileNotFoundError")

/-- Translation of the OrderDataSource constructor: the catalog is loaded during
construction, so a load failure aborts construction before anything else runs. -/
def OrderDataSource.init (fs : String → Option (List (String × List String)))
    (total_orders num_users max_num_items : Nat) (products_json_file : String)
    (today : Date) : Except String OrderDataSource :=
  match load_product_data fs products_json_file with
  | Except.error e => Except.error e
  | Except.ok pj =>
    Except.ok {
      max_total_orders := total_orders
      num_users := num_users
      max_num_items := max_num_items
      products_json_file := products_json_file
      products_json := pj
      date := get_next_black_friday_date today }

/-- The list comprehension of the emission generator: the cross product of user
ids 1..num_users with order numbers 1..max_items, users outermost. -/
def all_orders (num_users max_items : Nat) : List (Nat × Nat) :=
  (List.range num_users).flatMap
    (fun u => (List.range max_items).map (fun o => (u + 1, o + 1)))

/-- Loop of the emission generator: a delay draw feeds time.sleep, then one order
is generated and yielded; after the TOTAL_ORDERS-th emission the loop returns even
if pairs remain.  The yielded order is kept next to its driving pair. -/
def run_stream {σ φ : Type} (R : RNG σ) (F : FakerGen φ) (src : OrderDataSource) :
    List (Nat × Nat) → Nat → σ → φ → List ((Nat × Nat) × Order)
  | [], _, _, _ => []
  | p :: rest, count, s, f =>
    let rdel := R.uniformFn s MIN_DELAY_EVENTS MAX_DELAY_EVENTS
    let g := generate_random_order_data R F src p.1 p.2 rdel.2 f
    if TOTAL_ORDERS ≤ count + 1 then [(p, g.1)]
    else (p, g.1) :: run_stream R F src rest (count + 1) g.2.1 g.2.2

/-- Translation of the emission generator: build all pairs, shuffle them in place,
then emit with the cap applied.  random.shuffle is abstracted as a shuffle function;
theorems assume its output is a permutation of its input. -/
def source_random_order_data {σ φ : Type} (R : RNG σ) (F : FakerGen φ)
    (src : OrderDataSource) (shuffle : List (Nat × Nat) → List (Nat × Nat))
    (s : σ) (f : φ) : List ((Nat × Nat) × Order) :=
  run_stream R F src (shuffle (all_orders src.num_users MAX_NUM_ITEMS_PER_USER)) 0 s f

/- Concrete deterministic instances of the abstract interfaces, for witnesses. -/

/-- A simple deterministic instance of the random interface. -/
def trivRNG : RNG Unit where
  seedFn := fun _ => ()
  unitFn := fun s => (1/2, s)
  randintFn := fun s a _ => (a, s)
  choiceIdx := fun s _ => (0, s)
  uniformFn := fun s a _ => (a, s)

theorem trivRNG_valid : trivRNG.Valid := by
  refine ⟨fun s => ⟨?_, ?_⟩, fun s a b h => ⟨le_refl a, h⟩, fun s n h => h,
    fun s a b h => ⟨le_refl a, h⟩⟩
  · show (0 : ℚ) ≤ 1/2
    norm_num
  · show (1 : ℚ)/2 < 1
    norm_num

/-- A simple deterministic instance of the Faker interface. -/
def trivFaker : FakerGen Unit where
  seed_instance := fun _ => ()
  random_number := fun f _ => (0, f)
  boolean := fun f _ => (false, f)
  user_agent := fun f => (("agent"), f)

/- Basic facts about two decimal rounding. -/

theorem round2_mono {x y : ℚ} (h : x ≤ y) : round2 x ≤ round2 y := by
  unfold round2
  have h1 : round (100 * x) ≤ round (100 * y) := by
    rw [round_eq, round_eq]
    exact Int.floor_le_floor (by linarith)
  have h2 : ((round (100 * x) : ℤ) : ℚ) ≤ ((round (100 * y) : ℤ) : ℚ) := by
    exact_mod_cast h1
  linarith

theorem round2_one : round2 1 = 1 := by
  unfold round2
  rw [round_eq]
  norm_num

theorem round2_hundred : round2 100 = 100 := by
  unfold round2
  rw [round_eq]
  norm_num

theorem round2_zero : round2 0 = 0 := by
  unfold round2
  rw [round_eq]
  norm_num

/-- C5: the item dictionary returned by the item synthesis is the same no matter
what state the shared pseudo random source was in before the call, because the
method reseeds the source from the order number first. -/
theorem product_data_independent_of_prior_state (σ : Type) (R : RNG σ)
    (catalog : List (String × List String)) (max_num_items order_num : Nat)
    (s s2 : σ) :
    (generate_random_product_data R catalog max_num_items order_num s).1 =
      (generate_random_product_data R catalog max_num_items order_num s2).1 := rfl

/-- C4: for every generated order the net total equals the subtotal minus shipping
cost, coupon value and sales tax value rounded to two decimals, and the derivation
applies no lower bound, so the formula can produce negative values. -/
theorem net_total_is_derived_and_unfloored :
    (∀ (σ φ : Type) (R : RNG σ) (F : FakerGen φ) (src : OrderDataSource)
      (user_id order_num : Nat) (s : σ) (f : φ),
      ((generate_random_order_data R F src user_id order_num s f).1).net_total_order_price =
        round2 (((generate_random_order_data R F src user_id order_num s f).1).total_order_price
          - ((generate_random_order_data R F src user_id order_num s f).1).shipping_cost
          - ((generate_random_order_data R F src user_id order_num s f).1).discount_coupon_value
          - ((generate_random_order_data R F src user_id order_num s f).1).sales_tax_value)) ∧
    (∃ t sc cv tv : ℚ, net_total_price t sc cv tv < 0) := by
  constructor
  · intro σ φ R F src user_id order_num s f
    rfl
  · refine ⟨0, 1, 0, 0, ?_⟩
    unfold net_total_price round2
    rw [round_eq]
    norm_num

/-- C9: constructing the generator with a catalog path absent from the filesystem
fails with FileNotFoundError, before any order can be generated or emitted. -/
theorem missing_catalog_aborts_construction
    (fs : String → Option (List (String × List String)))
    (total_orders num_users max_num_items : Nat) (path : String) (today : Date)
    (h : fs path = none) :
    OrderDataSource.init fs total_orders num_users max_num_items path today =
      Except.error ("FileNotFoundError") := by
  unfold OrderDataSource.init load_product_data
  rw [h]

theorem missing_catalog_aborts_construction_witness :
    ((fun _ : String => (none : Option (List (String × List String))))
      ("missing.json") = none) ∧
    OrderDataSource.init (fun _ => none) 1000 50 10 ("missing.json")
      ⟨2025, 10, 12⟩ = Except.error ("FileNotFoundError") :=
  ⟨rfl, missing_catalog_aborts_construction (fun _ => none) 1000 50 10
    ("missing.json") ⟨2025, 10, 12⟩ rfl⟩

/-- Deterministic random instance whose index draw returns i modulo the bound,
used to show that each coupon index is reachable. -/
def idxRNG (i : Nat) : RNG Unit :=
  { trivRNG with choiceIdx := fun s n => (i % n, s) }

theorem idxRNG_valid (i : Nat) : (idxRNG i).Valid := by
  refine ⟨fun s => ⟨?_, ?_⟩, fun s a b h => ⟨le_refl a, h⟩,
    fun s n h => Nat.mod_lt _ h, fun s a b h => ⟨le_refl a, h⟩⟩
  · show (0 : ℚ) ≤ 1/2
    norm_num
  · show (1 : ℚ)/2 < 1
    norm_num

/-- C1 counterexample: the source pairs the candidate list [true, false] with the
weight list [0.7, 0.3] positionally, so true receives weight 0.7, not 0.3; at the
unit draw one half the flag comes out true, although a weighting that gives true
only 0.3 would produce false there. -/
theorem coupon_flag_weights_claim_false :
    weightAssigned [true, false] WEIGHTS_COUPON_APPLIED true = 0.7 ∧
    ¬ weightAssigned [true, false] WEIGHTS_COUPON_APPLIED true = 0.3 ∧
    pickByWeight [true, false] [(0.3 : ℚ), 0.7] ((1 : ℚ)/2 * 1) = some false ∧
    (apply_discount_coupon trivRNG ()).1.1 = true := by
  refine ⟨by norm_num [weightAssigned, WEIGHTS_COUPON_APPLIED],
    by norm_num [weightAssigned, WEIGHTS_COUPON_APPLIED],
    by norm_num [pickByWeight], ?_⟩
  norm_num [apply_discount_coupon, random_choice_with_weights, trivRNG,
    pickByWeight, WEIGHTS_COUPON_APPLIED]

/-- C1 amended: in every call to the coupon method the applied flag is drawn by a
weighted choice assigning weight 0.7 to true and weight 0.3 to false; under a
valid unit draw the flag is true exactly when the draw falls below 0.7. -/
theorem coupon_flag_weights_corrected (σ : Type) (R : RNG σ) (s : σ) (h : R.Valid) :
    weightAssigned [true, false] WEIGHTS_COUPON_APPLIED true = 0.7 ∧
    weightAssigned [true, false] WEIGHTS_COUPON_APPLIED false = 0.3 ∧
    ((apply_discount_coupon R s).1.1 = true ↔ (R.unitFn s).1 < 0.7) := by
  refine ⟨by norm_num [weightAssigned, WEIGHTS_COUPON_APPLIED],
    by norm_num [weightAssigned, WEIGHTS_COUPON_APPLIED], ?_⟩
  obtain ⟨hu0, hu1⟩ := h.1 s
  have key : (apply_discount_coupon R s).1.1 =
      ((pickByWeight [true, false] WEIGHTS_COUPON_APPLIED
        ((R.unitFn s).1 * WEIGHTS_COUPON_APPLIED.sum)).getD false) := by
    simp only [apply_discount_coupon, random_choice_with_weights]
    split <;> rfl
  rw [key]
  have hsum : WEIGHTS_COUPON_APPLIED.sum = 1 := by
    norm_num [WEIGHTS_COUPON_APPLIED]
  rw [hsum, mul_one]
  unfold WEIGHTS_COUPON_APPLIED
  simp only [pickByWeight]
  split_ifs with h1 h2
  · simp [h1]
  · simpa using h1
  · simpa using h1

theorem coupon_flag_weights_corrected_witness :
    trivRNG.Valid ∧
    (weightAssigned [true, false] WEIGHTS_COUPON_APPLIED true = 0.7 ∧
      weightAssigned [true, false] WEIGHTS_COUPON_APPLIED false = 0.3 ∧
      ((apply_discount_coupon trivRNG ()).1.1 = true ↔ (trivRNG.unitFn ()).1 < 0.7)) :=
  ⟨trivRNG_valid, coupon_flag_weights_corrected Unit trivRNG () trivRNG_valid⟩

theorem coupon_pair_mem (i : Nat) (hi : i < 4) :
    (((DISCOUNT_COUPONS.map Prod.fst).getD i ("")),
      (DISCOUNT_COUPONS.lookup ((DISCOUNT_COUPONS.map Prod.fst).getD i (""))).getD 0)
      ∈ DISCOUNT_COUPONS := by
  interval_cases i <;> simp [DISCOUNT_COUPONS, List.lookup]

/-- C7: when the coupon flag is false the method returns the empty description and
value zero; when it is true it returns one of the exactly four fixed coupon pairs,
whose fractions are 0.05, 0.1, 0.15 and 0.2 with pairwise distinct codes, and
every one of the four indices of the uniform index draw is reachable. -/
theorem discount_coupon_result (σ : Type) (R : RNG σ) (s : σ) (h : R.Valid) :
    ((apply_discount_coupon R s).1.1 = false →
      (apply_discount_coupon R s).1.2.1 = "" ∧ (apply_discount_coupon R s).1.2.2 = 0) ∧
    ((apply_discount_coupon R s).1.1 = true →
      (apply_discount_coupon R s).1.2 ∈ DISCOUNT_COUPONS) ∧
    DISCOUNT_COUPONS.length = 4 ∧
    (DISCOUNT_COUPONS.map Prod.fst).Nodup ∧
    DISCOUNT_COUPONS.map Prod.snd = [0.05, 0.1, 0.15, 0.2] ∧
    (∀ i, i < 4 → (idxRNG i).Valid ∧
      (apply_discount_coupon (idxRNG i) ()).1.2 = DISCOUNT_COUPONS.getD i ((""), 0)) := by
  refine ⟨?_, ?_, rfl, by simp [DISCOUNT_COUPONS], rfl, ?_⟩
  · simp only [apply_discount_coupon, random_choice_with_weights]
    split
    · next hb =>
      intro hf
      simp only at hf
      rw [hb] at hf
      simp at hf
    · intro _
      exact ⟨rfl, rfl⟩
  · simp only [apply_discount_coupon, random_choice_with_weights]
    split
    · next hb =>
      intro _
      have hlen : DISCOUNT_COUPONS.length = 4 := rfl
      have hi : (R.choiceIdx (R.unitFn s).2 DISCOUNT_COUPONS.length).1 < 4 := by
        have := h.2.2.1 (R.unitFn s).2 DISCOUNT_COUPONS.length (by rw [hlen]; norm_num)
        rwa [hlen] at this
      exact coupon_pair_mem _ hi
    · next hb =>
      intro ht
      simp only at ht
      exact absurd ht hb
  · intro i hi
    refine ⟨idxRNG_valid i, ?_⟩
    interval_cases i <;>
      norm_num [apply_discount_coupon, random_choice_with_weights, idxRNG, trivRNG,
        pickByWeight, WEIGHTS_COUPON_APPLIED, DISCOUNT_COUPONS, List.lookup] <;>
      simp

theorem discount_coupon_result_witness :
    trivRNG.Valid ∧
    (((apply_discount_coupon trivRNG ()).1.1 = false →
      (apply_discount_coupon trivRNG ()).1.2.1 = "" ∧
        (apply_discount_coupon trivRNG ()).1.2.2 = 0) ∧
    ((apply_discount_coupon trivRNG ()).1.1 = true →
      (apply_discount_coupon trivRNG ()).1.2 ∈ DISCOUNT_COUPONS) ∧
    DISCOUNT_COUPONS.length = 4 ∧
    (DISCOUNT_COUPONS.map Prod.fst).Nodup ∧
    DISCOUNT_COUPONS.map Prod.snd = [0.05, 0.1, 0.15, 0.2] ∧
    (∀ i, i < 4 → (idxRNG i).Valid ∧
      (apply_discount_coupon (idxRNG i) ()).1.2 = DISCOUNT_COUPONS.getD i ((""), 0))) :=
  ⟨trivRNG_valid, discount_coupon_result Unit trivRNG () trivRNG_valid⟩

/-- C6: shipping cost is zero for subscribers, and otherwise is a uniform draw
from the closed interval between one and ten percent of the subtotal rounded to
two decimals, which degenerates to zero when the subtotal is zero. -/
theorem shipping_cost_spec (σ : Type) (R : RNG σ) (bf : Date) (sub : Bool)
    (total : ℚ) (s : σ) (h : R.Valid) (htot : 0 ≤ total) :
    (sub = true → (generate_shipping_data R bf sub total s).1.2.1 = 0) ∧
    (sub = false → ∃ u : ℚ, total * 0.01 ≤ u ∧ u ≤ total * 0.1 ∧
      (generate_shipping_data R bf sub total s).1.2.1 = round2 u) ∧
    (sub = false → total = 0 → (generate_shipping_data R bf sub total s).1.2.1 = 0) := by
  have hrange : total * 0.01 ≤ total * 0.1 := by nlinarith
  refine ⟨?_, ?_, ?_⟩
  · intro hs
    subst hs
    rfl
  · intro hs
    subst hs
    obtain ⟨hl, hr⟩ := h.2.2.2 ((random_choice_with_weights R
      [("Standard"), ("Expedited"), ("Next Day")] WEIGHTS_SHIPPING_METHOD s).2)
      (total * 0.01) (total * 0.1) hrange
    exact ⟨_, hl, hr, rfl⟩
  · intro hs htz
    subst hs
    subst htz
    obtain ⟨hl, hr⟩ := h.2.2.2 ((random_choice_with_weights R
      [("Standard"), ("Expedited"), ("Next Day")] WEIGHTS_SHIPPING_METHOD s).2)
      ((0 : ℚ) * 0.01) ((0 : ℚ) * 0.1) hrange
    have hu : (R.uniformFn ((random_choice_with_weights R
        [("Standard"), ("Expedited"), ("Next Day")] WEIGHTS_SHIPPING_METHOD s).2)
        ((0 : ℚ) * 0.01) ((0 : ℚ) * 0.1)).1 = 0 := by
      have h1 : (0 : ℚ) * 0.01 = 0 := by norm_num
      have h2 : (0 : ℚ) * 0.1 = 0 := by norm_num
      rw [h1, h2] at hl hr
      linarith
    show round2 ((R.uniformFn _ _ _).1) = 0
    rw [hu]
    exact round2_zero

theorem shipping_cost_spec_witness :
    trivRNG.Valid ∧ (0 : ℚ) ≤ 2 ∧
    ((false = true → (generate_shipping_data trivRNG ⟨2025, 11, 28⟩ false 2 ()).1.2.1 = 0) ∧
    (false = false → ∃ u : ℚ, 2 * 0.01 ≤ u ∧ u ≤ 2 * 0.1 ∧
      (generate_shipping_data trivRNG ⟨2025, 11, 28⟩ false 2 ()).1.2.1 = round2 u) ∧
    (false = false → (2 : ℚ) = 0 →
      (generate_shipping_data trivRNG ⟨2025, 11, 28⟩ false 2 ()).1.2.1 = 0)) :=
  ⟨trivRNG_valid, zero_le_two,
    shipping_cost_spec Unit trivRNG ⟨2025, 11, 28⟩ false 2 () trivRNG_valid zero_le_two⟩

/- Price bounds for the synthesized line items. -/

theorem build_products_price_bounds (σ : Type) (R : RNG σ) (h : R.Valid)
    (catalog : List (String × List String)) :
    ∀ (k idx : Nat) (s : σ), ∀ it ∈ (build_products R catalog k idx s).1,
      1 ≤ it.2.price ∧ it.2.price ≤ 100 ∧ ∃ n : ℤ, it.2.price = (n : ℚ) / 100 := by
  intro k
  induction k with
  | zero =>
    intro idx s it hit
    simp [build_products] at hit
  | succ n ih =>
    intro idx s it hit
    simp only [build_products, List.mem_cons] at hit
    rcases hit with hh | ht
    · subst hh
      obtain ⟨hl, hr⟩ := h.2.2.2 _ (1 : ℚ) 100 (by norm_num)
      refine ⟨?_, ?_, ⟨round (100 * _), rfl⟩⟩
      · calc (1 : ℚ) = round2 1 := round2_one.symm
          _ ≤ _ := round2_mono hl
      · calc round2 _ ≤ round2 100 := round2_mono hr
          _ = 100 := round2_hundred
    · exact ih _ _ it ht

/-- C8 amended: every synthesized line item price is a two decimal rounding of a
uniform draw, so it is at least 1, at most 100, and an integer multiple of one
hundredth; the bound 100 is attained, so the half open bound of the claim fails. -/
theorem item_price_bounds (σ : Type) (R : RNG σ)
    (catalog : List (String × List String)) (max_num_items order_num : Nat)
    (s : σ) (h : R.Valid) :
    ∀ it ∈ (generate_random_product_data R catalog max_num_items order_num s).1,
      1 ≤ it.2.price ∧ it.2.price ≤ 100 ∧ ∃ n : ℤ, it.2.price = (n : ℚ) / 100 := by
  intro it hit
  exact build_products_price_bounds σ R h catalog _ _ _ it hit

/-- Deterministic valid random instance whose uniform draw returns 99.999 whenever
that value lies in the requested interval. -/
def hiRNG : RNG Unit :=
  { trivRNG with uniformFn := fun s a b =>
      (if a ≤ 99.999 ∧ (99.999 : ℚ) ≤ b then (99.999 : ℚ) else a, s) }

theorem hiRNG_valid : hiRNG.Valid := by
  refine ⟨fun s => ⟨?_, ?_⟩, fun s a b h => ⟨le_refl a, h⟩, fun s n h => h, ?_⟩
  · show (0 : ℚ) ≤ 1/2
    norm_num
  · show (1 : ℚ)/2 < 1
    norm_num
  · intro s a b hab
    show a ≤ (if a ≤ 99.999 ∧ (99.999 : ℚ) ≤ b then (99.999 : ℚ) else a) ∧
      (if a ≤ 99.999 ∧ (99.999 : ℚ) ≤ b then (99.999 : ℚ) else a) ≤ b
    split_ifs with hc
    · exact ⟨hc.1, hc.2⟩
    · exact ⟨le_refl a, hab⟩

/-- C8 counterexample: with the valid random source drawing the price 99.999, the
price rounded to two decimals equals exactly 100, which is not strictly below 100,
so the half open interval claim is false for this line item. -/
theorem item_price_strict_bound_false :
    hiRNG.Valid ∧
    ((generate_random_product_data hiRNG [(("Electronics"), [("Phone")])] 1 5 ()).1.map
      (fun it => it.2.price)) = [100] ∧
    ¬ ((100 : ℚ) < 100) := by
  refine ⟨hiRNG_valid, ?_, by norm_num⟩
  show [round2 (if (1 : ℚ) ≤ 99.999 ∧ (99.999 : ℚ) ≤ 100 then (99.999 : ℚ) else 1)] = [100]
  rw [if_pos (by norm_num : (1 : ℚ) ≤ 99.999 ∧ (99.999 : ℚ) ≤ 100)]
  unfold round2
  rw [round_eq]
  norm_num

theorem item_price_bounds_witness :
    hiRNG.Valid ∧
    (∀ it ∈ (generate_random_product_data hiRNG
        [(("Electronics"), [("Phone")])] 1 5 ()).1,
      1 ≤ it.2.price ∧ it.2.price ≤ 100 ∧ ∃ n : ℤ, it.2.price = (n : ℚ) / 100) :=
  ⟨hiRNG_valid, item_price_bounds Unit hiRNG
    [(("Electronics"), [("Phone")])] 1 5 () hiRNG_valid⟩

/- Calendar lemmas for the Black Friday computation. -/

theorem toOrdinal_day_add (y m d k : Nat) :
    toOrdinal ⟨y, m, d + k⟩ = toOrdinal ⟨y, m, d⟩ + k := by
  unfold toOrdinal
  dsimp only
  omega

theorem toOrdinal_pos (y m d : Nat) (hd : 1 ≤ d) : 1 ≤ toOrdinal ⟨y, m, d⟩ := by
  unfold toOrdinal
  dsimp only
  omega

theorem addDays_same_month :
    ∀ (k : Nat) (d : Date), d.day + k ≤ daysInMonth d.year d.month →
      addDays d k = ⟨d.year, d.month, d.day + k⟩ := by
  intro k
  induction k with
  | zero =>
    intro d h
    simp [addDays]
  | succ n ih =>
    intro d h
    have hlt : d.day < daysInMonth d.year d.month := by omega
    have hnext : nextDay d = ⟨d.year, d.month, d.day + 1⟩ := by
      unfold nextDay
      rw [if_pos hlt]
    show addDays (nextDay d) n = _
    rw [hnext, ih ⟨d.year, d.month, d.day + 1⟩ (by dsimp only; omega)]
    have harith : d.day + 1 + n = d.day + (n + 1) := by omega
    rw [harith]

theorem daysInMonth_nov (y : Nat) : daysInMonth y 11 = 30 := rfl

theorem black_friday_core (y : Nat) :
    pyWeekday (addDays (addDays ⟨y, 11, 1⟩ (nthWeekdayJump ⟨y, 11, 1⟩ 3 4)) 1) = 4 ∧
    (addDays (addDays ⟨y, 11, 1⟩ (nthWeekdayJump ⟨y, 11, 1⟩ 3 4)) 1).month = 11 ∧
    (addDays (addDays ⟨y, 11, 1⟩ (nthWeekdayJump ⟨y, 11, 1⟩ 3 4)) 1).year = y ∧
    ∃ t : Date, t.year = y ∧ t.month = 11 ∧ pyWeekday t = 3 ∧
      21 < t.day ∧ t.day ≤ 28 ∧
      addDays (addDays ⟨y, 11, 1⟩ (nthWeekdayJump ⟨y, 11, 1⟩ 3 4)) 1 = addDays t 1 := by
  have hB : 1 ≤ toOrdinal ⟨y, 11, 1⟩ := toOrdinal_pos y 11 1 (le_refl 1)
  have hj : nthWeekdayJump ⟨y, 11, 1⟩ 3 4 =
      (7 - (toOrdinal ⟨y, 11, 1⟩ - 1) % 7 + 3) % 7 + 21 := rfl
  have hjhi : nthWeekdayJump ⟨y, 11, 1⟩ 3 4 ≤ 27 := by rw [hj]; omega
  have hjlo : 21 ≤ nthWeekdayJump ⟨y, 11, 1⟩ 3 4 := by rw [hj]; omega
  have h1 : addDays ⟨y, 11, 1⟩ (nthWeekdayJump ⟨y, 11, 1⟩ 3 4) =
      ⟨y, 11, 1 + nthWeekdayJump ⟨y, 11, 1⟩ 3 4⟩ := by
    exact addDays_same_month _ ⟨y, 11, 1⟩
      (by show 1 + _ ≤ daysInMonth y 11; rw [daysInMonth_nov]; omega)
  have h2 : addDays ⟨y, 11, 1 + nthWeekdayJump ⟨y, 11, 1⟩ 3 4⟩ 1 =
      ⟨y, 11, 1 + nthWeekdayJump ⟨y, 11, 1⟩ 3 4 + 1⟩ := by
    exact addDays_same_month 1 ⟨y, 11, 1 + nthWeekdayJump ⟨y, 11, 1⟩ 3 4⟩
      (by show 1 + _ + 1 ≤ daysInMonth y 11; rw [daysInMonth_nov]; omega)
  rw [h1, h2]
  have hord : toOrdinal ⟨y, 11, 1 + nthWeekdayJump ⟨y, 11, 1⟩ 3 4⟩ =
      toOrdinal ⟨y, 11, 1⟩ + nthWeekdayJump ⟨y, 11, 1⟩ 3 4 :=
    toOrdinal_day_add y 11 1 _
  have hord2 : toOrdinal ⟨y, 11, 1 + nthWeekdayJump ⟨y, 11, 1⟩ 3 4 + 1⟩ =
      toOrdinal ⟨y, 11, 1⟩ + (nthWeekdayJump ⟨y, 11, 1⟩ 3 4 + 1) :=
    toOrdinal_day_add y 11 1 (nthWeekdayJump ⟨y, 11, 1⟩ 3 4 + 1)
  refine ⟨?_, rfl, rfl, ⟨y, 11, 1 + nthWeekdayJump ⟨y, 11, 1⟩ 3 4⟩,
    rfl, rfl, ?_,
    (by show 21 < 1 + nthWeekdayJump ⟨y, 11, 1⟩ 3 4; omega),
    (by show 1 + nthWeekdayJump ⟨y, 11, 1⟩ 3 4 ≤ 28; omega), h2.symm⟩
  · unfold pyWeekday
    rw [hord2, hj]
    omega
  · unfold pyWeekday
    rw [hord, hj]
    omega

/-- C2: every date returned by the Black Friday computation is a Friday (weekday
code 4), falls in month 11, and equals the fourth Thursday of that month (the
Thursday whose day lies in 22..28) plus exactly one day. -/
theorem black_friday_shape (today : Date) :
    pyWeekday (get_next_black_friday_date today) = 4 ∧
    (get_next_black_friday_date today).month = 11 ∧
    ∃ t : Date, t.year = (get_next_black_friday_date today).year ∧ t.month = 11 ∧
      pyWeekday t = 3 ∧ 21 < t.day ∧ t.day ≤ 28 ∧
      get_next_black_friday_date today = addDays t 1 := by
  obtain ⟨hwk, hmon, hyr, t, ht1, ht2, ht3, ht4, ht5, ht6⟩ :=
    black_friday_core (if today.month > BLACK_FRIDAY_MONTH ∨
      (today.month = BLACK_FRIDAY_MONTH ∧
        today.day > BLACK_FRIDAY_START_DAY + BLACK_FRIDAY_WEEK)
      then today.year + 1 else today.year)
  exact ⟨hwk, hmon, t, ht1.trans hyr.symm, ht2, ht3, ht4, ht5, ht6⟩

/- Lemmas about the pair enumeration and the capped emission loop. -/

theorem mem_all_orders (num_users max_items : Nat) (p : Nat × Nat) :
    p ∈ all_orders num_users max_items ↔
      1 ≤ p.1 ∧ p.1 ≤ num_users ∧ 1 ≤ p.2 ∧ p.2 ≤ max_items := by
  obtain ⟨a, b⟩ := p
  simp only [all_orders, List.mem_flatMap, List.mem_map, List.mem_range, Prod.mk.injEq]
  constructor
  · rintro ⟨u, hu, o, ho, h1, h2⟩
    omega
  · rintro ⟨h1, h2, h3, h4⟩
    exact ⟨a - 1, by omega, b - 1, by omega, by omega, by omega⟩

theorem all_orders_nodup (num_users max_items : Nat) :
    (all_orders num_users max_items).Nodup := by
  unfold all_orders
  rw [List.nodup_flatMap]
  constructor
  · intro u hu
    refine List.Nodup.map ?_ (List.nodup_range max_items)
    intro a b hab
    simpa using hab
  · have hp : (List.range num_users).Pairwise (fun a b => a ≠ b) :=
      List.nodup_range num_users
    refine hp.imp ?_
    intro a b hab x hxa hxb
    simp only [List.mem_map, List.mem_range] at hxa hxb
    obtain ⟨o1, ho1, he1⟩ := hxa
    obtain ⟨o2, ho2, he2⟩ := hxb
    have hfst := he1.trans he2.symm
    simp only [Prod.mk.injEq] at hfst
    exact hab (by omega)

theorem all_orders_length (num_users max_items : Nat) :
    (all_orders num_users max_items).length = num_users * max_items := by
  unfold all_orders
  induction num_users with
  | zero => simp
  | succ n ih =>
    rw [List.range_succ, List.flatMap_append, List.length_append, ih]
    simp only [List.flatMap_cons, List.flatMap_nil, List.append_nil, List.length_map,
      List.length_range]
    ring

theorem run_stream_map_fst {σ φ : Type} (R : RNG σ) (F : FakerGen φ)
    (src : OrderDataSource) :
    ∀ (l : List (Nat × Nat)) (c : Nat) (s : σ) (f : φ), c < TOTAL_ORDERS →
      (run_stream R F src l c s f).map Prod.fst = l.take (TOTAL_ORDERS - c) := by
  intro l
  induction l with
  | nil =>
    intro c s f hc
    simp [run_stream]
  | cons p rest ih =>
    intro c s f hc
    simp only [run_stream]
    split_ifs with hstop
    · have h1 : TOTAL_ORDERS - c = 1 := by omega
      rw [h1]
      simp
    · have h1 : TOTAL_ORDERS - c = (TOTAL_ORDERS - (c + 1)) + 1 := by omega
      rw [h1, List.map_cons, List.take_succ_cons, ih (c + 1) _ _ (by omega)]

theorem source_map_fst {σ φ : Type} (R : RNG σ) (F : FakerGen φ)
    (src : OrderDataSource) (shuffle : List (Nat × Nat) → List (Nat × Nat))
    (s : σ) (f : φ) :
    (source_random_order_data R F src shuffle s f).map Prod.fst =
      (shuffle (all_orders src.num_users MAX_NUM_ITEMS_PER_USER)).take TOTAL_ORDERS := by
  unfold source_random_order_data
  have h0 : (0 : Nat) < TOTAL_ORDERS := by norm_num [TOTAL_ORDERS]
  simpa using run_stream_map_fst R F src
    (shuffle (all_orders src.num_users MAX_NUM_ITEMS_PER_USER)) 0 s f h0

/-- C3: the emission yields at most TOTAL_ORDERS records, at most one record per
element of the cross product of user ids 1..num_users with order numbers
1..MAX_NUM_ITEMS_PER_USER, every yielded pair lies in that cross product, and no
pair is yielded twice within a run. -/
theorem stream_cap_and_pairs {σ φ : Type} (R : RNG σ) (F : FakerGen φ)
    (src : OrderDataSource)
    (shuffle : List (Nat × Nat) → List (Nat × Nat)) (s : σ) (f : φ)
    (hperm : (shuffle (all_orders src.num_users MAX_NUM_ITEMS_PER_USER)).Perm
      (all_orders src.num_users MAX_NUM_ITEMS_PER_USER)) :
    (source_random_order_data R F src shuffle s f).length ≤ TOTAL_ORDERS ∧
    (source_random_order_data R F src shuffle s f).length ≤
      src.num_users * MAX_NUM_ITEMS_PER_USER ∧
    (∀ q ∈ (source_random_order_data R F src shuffle s f).map Prod.fst,
      1 ≤ q.1 ∧ q.1 ≤ src.num_users ∧ 1 ≤ q.2 ∧ q.2 ≤ MAX_NUM_ITEMS_PER_USER) ∧
    ((source_random_order_data R F src shuffle s f).map Prod.fst).Nodup := by
  have hfst := source_map_fst R F src shuffle s f
  have hlen : (source_random_order_data R F src shuffle s f).length =
      ((source_random_order_data R F src shuffle s f).map Prod.fst).length :=
    (List.length_map _ _).symm
  refine ⟨?_, ?_, ?_, ?_⟩
  · rw [hlen, hfst, List.length_take]
    exact Nat.min_le_left _ _
  · rw [hlen, hfst, List.length_take, hperm.length_eq, all_orders_length]
    exact Nat.min_le_right _ _
  · intro q hq
    rw [hfst] at hq
    exact (mem_all_orders _ _ q).mp (hperm.subset (List.take_subset _ _ hq))
  · rw [hfst]
    exact List.Nodup.sublist (List.take_sublist _ _)
      (hperm.nodup_iff.mpr (all_orders_nodup _ _))

/-- A concrete generator state used in witnesses. -/
def srcW : OrderDataSource :=
  { max_total_orders := 1000, num_users := 1, max_num_items := 10,
    products_json_file := ("products.json"),
    products_json := [(("Electronics"), [("Phone")])],
    date := ⟨2025, 11, 28⟩ }

theorem stream_cap_and_pairs_witness :
    ((id (all_orders srcW.num_users MAX_NUM_ITEMS_PER_USER)).Perm
      (all_orders srcW.num_users MAX_NUM_ITEMS_PER_USER)) ∧
    ((source_random_order_data trivRNG trivFaker srcW id () ()).length ≤ TOTAL_ORDERS ∧
    (source_random_order_data trivRNG trivFaker srcW id () ()).length ≤
      srcW.num_users * MAX_NUM_ITEMS_PER_USER ∧
    (∀ q ∈ (source_random_order_data trivRNG trivFaker srcW id () ()).map Prod.fst,
      1 ≤ q.1 ∧ q.1 ≤ srcW.num_users ∧ 1 ≤ q.2 ∧ q.2 ≤ MAX_NUM_ITEMS_PER_USER) ∧
    ((source_random_order_data trivRNG trivFaker srcW id () ()).map Prod.fst).Nodup) :=
  ⟨List.Perm.refl _,
    stream_cap_and_pairs trivRNG trivFaker srcW id () () (List.Perm.refl _)⟩

theorem run_stream_update {σ φ : Type} (R : RNG σ) (F : FakerGen φ)
    (src : OrderDataSource) (t : Nat) :
    ∀ (l : List (Nat × Nat)) (c : Nat) (s : σ) (f : φ),
      run_stream R F { src with max_total_orders := t } l c s f =
        run_stream R F src l c s f := by
  intro l
  induction l with
  | nil =>
    intro c s f
    rfl
  | cons p rest ih =>
    intro c s f
    simp only [run_stream]
    split_ifs with hstop
    · rfl
    · exact congrArg (List.cons _) (ih (c + 1) _ _)

/-- C10: the emission enumerates order numbers from the module constant range and
stops at the module constant cap: replacing the stored constructor argument for
the total order count changes nothing, the yielded pairs are the first
TOTAL_ORDERS shuffled elements of the cross product with MAX_NUM_ITEMS_PER_USER,
and the number of yielded records is the minimum of num_users times
MAX_NUM_ITEMS_PER_USER and TOTAL_ORDERS. -/
theorem stream_ignores_ctor_total {σ φ : Type} (R : RNG σ) (F : FakerGen φ)
    (src : OrderDataSource) (t : Nat)
    (shuffle : List (Nat × Nat) → List (Nat × Nat)) (s : σ) (f : φ)
    (hperm : (shuffle (all_orders src.num_users MAX_NUM_ITEMS_PER_USER)).Perm
      (all_orders src.num_users MAX_NUM_ITEMS_PER_USER)) :
    source_random_order_data R F { src with max_total_orders := t } shuffle s f =
      source_random_order_data R F src shuffle s f ∧
    (source_random_order_data R F src shuffle s f).map Prod.fst =
      (shuffle (all_orders src.num_users MAX_NUM_ITEMS_PER_USER)).take TOTAL_ORDERS ∧
    (source_random_order_data R F src shuffle s f).length =
      min (src.num_users * MAX_NUM_ITEMS_PER_USER) TOTAL_ORDERS := by
  have hfst := source_map_fst R F src shuffle s f
  refine ⟨?_, hfst, ?_⟩
  · unfold source_random_order_data
    exact run_stream_update R F src t
      (shuffle (all_orders src.num_users MAX_NUM_ITEMS_PER_USER)) 0 s f
  · have hlen : (source_random_order_data R F src shuffle s f).length =
        ((source_random_order_data R F src shuffle s f).map Prod.fst).length :=
      (List.length_map _ _).symm
    rw [hlen, hfst, List.length_take, hperm.length_eq, all_orders_length,
      Nat.min_comm]

theorem stream_ignores_ctor_total_witness :
    ((id (all_orders srcW.num_users MAX_NUM_ITEMS_PER_USER)).Perm
      (all_orders srcW.num_users MAX_NUM_ITEMS_PER_USER)) ∧
    (source_random_order_data trivRNG trivFaker { srcW with max_total_orders := 7 }
        id () () =
      source_random_order_data trivRNG trivFaker srcW id () () ∧
    (source_random_order_data trivRNG trivFaker srcW id () ()).map Prod.fst =
      (id (all_orders srcW.num_users MAX_NUM_ITEMS_PER_USER)).take TOTAL_ORDERS ∧
    (source_random_order_data trivRNG trivFaker srcW id () ()).length =
      min (srcW.num_users * MAX_NUM_ITEMS_PER_USER) TOTAL_ORDERS) :=
  ⟨List.Perm.refl _,
    stream_ignores_ctor_total trivRNG trivFaker srcW 7 id () () (List.Perm.refl _)⟩

end FakerOrderGen
